import Mathlib

/-!
Shallow embedding of the Frontegg account-migration scripts
(`migration_scripts/*.py`, `main.py`) and proofs about the
reconciliation, identifier-remapping, pagination, rate-limit and
flag-reading behaviour of the code.

Identifiers, keys, names and descriptions are modelled as `String`.
Python dictionaries keyed by strings are modelled as insertion-ordered
association lists with last-write-wins insertion (`dictInsert`), and
`dict.get` with Python truthiness (`None`/empty string are falsy) is made
explicit wherever the code branches on it.
-/

namespace Migration

/-- Python truthiness of a string: `False` exactly for the empty string. -/
def strTruthy (s : String) : Bool := !(s == "")

/-- Insertion into an insertion-ordered string dictionary:
replaces the value when the key is present, appends otherwise
(Python `d[k] = v`). -/
def dictInsert (m : List (String × String)) (k v : String) :
    List (String × String) :=
  if m.any (fun e => e.1 == k) then
    m.map (fun e => if e.1 == k then (k, v) else e)
  else
    m ++ [(k, v)]

/-- Build a Python dict from a list of key/value pairs (later pairs win). -/
def dictOf (l : List (String × String)) : List (String × String) :=
  l.foldl (fun m e => dictInsert m e.1 e.2) []

/-- Python `d.get(k)`: the value stored at `k`, if any. -/
def dictGet (m : List (String × String)) (k : String) : Option String :=
  (m.find? (fun e => e.1 == k)).map (fun e => e.2)

/-! ### Data model (`permissions_and_categories.py`) -/

/-- A permission category as returned by
`GET /identity/resources/permissions/v1/categories` (`get_categories`). -/
structure Category where
  id : String
  name : String
  description : String
deriving DecidableEq, Repr

/-- A permission as returned by
`GET /identity/resources/permissions/v1` (`get_permissions`). -/
structure Permission where
  id : String
  key : String
  name : String
  description : String
  categoryId : String
deriving DecidableEq, Repr

/-- The creation payload sent for one permission by `create_permissions`. -/
structure PermissionPayload where
  key : String
  name : String
  description : String
  categoryId : String
deriving DecidableEq, Repr

/-- Step 2 of `migrate_settings`: for each source category, the first
destination category with equal `name` and `description`; matched pairs
populate `category_mapping[src.id] = dest.id`. -/
def buildCategoryMapping (sourceCategories destinationCategories : List Category) :
    List (String × String) :=
  sourceCategories.foldl
    (fun mapping srcCat =>
      match destinationCategories.find?
          (fun destCat => destCat.name == srcCat.name
            && destCat.description == srcCat.description) with
      | some destCat => dictInsert mapping srcCat.id destCat.id
      | none => mapping)
    []

/-- Step 5 of `migrate_settings`: rewrite each source permission whose
`categoryId` maps to a truthy destination category id; permissions whose
category id is unmapped (or maps to a falsy value) are skipped. -/
def rewritePermissions (categoryMapping : List (String × String))
    (sourcePermissions : List Permission) : List Permission :=
  sourcePermissions.filterMap
    (fun permission =>
      match dictGet categoryMapping permission.categoryId with
      | some destCategoryId =>
          if strTruthy destCategoryId then
            some { permission with categoryId := destCategoryId }
          else none
      | none => none)

/-- Split a list into consecutive chunks of size `n`
(Python `range(0, len, batch_size)` slicing in `create_permissions`). -/
def chunks (n : Nat) (l : List Permission) : List (List Permission) :=
  if h : l = [] ∨ n = 0 then []
  else l.take n :: chunks n (l.drop n)
termination_by l.length
decreasing_by
  simp only [List.length_drop]
  rcases not_or.mp h with ⟨hl, hn⟩
  have : 0 < l.length := List.length_pos.mpr hl
  omega

/-- The payloads built for one batch in `create_permissions`: records with
falsy `key` or falsy `categoryId` are filtered out, the rest keep only
`key`, `name`, `description` and `categoryId`. -/
def batchPayloads (batch : List Permission) : List PermissionPayload :=
  (batch.filter (fun p => strTruthy p.key && strTruthy p.categoryId)).map
    (fun p => ⟨p.key, p.name, p.description, p.categoryId⟩)

/-- All permission payloads sent by `create_permissions`, in order,
over the batches of 100. -/
def createPermissionsPayloads (permissions : List Permission) :
    List PermissionPayload :=
  ((chunks 100 permissions).map batchPayloads).flatten

/-! ### Tenants (`tenants.py`) -/

/-- A tenant record as returned by `get_tenants`
(`GET /tenants/resources/tenants/v2`, `items` key). -/
structure Tenant where
  tenantId : String
  name : String
  metadata : Option String
deriving DecidableEq, Repr

/-- In `bulk_create_tenants`, the tenants actually created — source tenants
whose `tenantId` is not among the destination tenant ids
(`new_tenants = [t for t in tenants if t['tenantId'] not in existing_tenants]`). -/
def newTenants (destinationTenants sourceTenants : List Tenant) : List Tenant :=
  sourceTenants.filter
    (fun t => !((destinationTenants.map (fun d => d.tenantId)).contains t.tenantId))

/-- In `bulk_create_tenants`, the tenants skipped because their `tenantId`
already exists in the destination. -/
def skippedTenants (destinationTenants sourceTenants : List Tenant) : List Tenant :=
  sourceTenants.filter
    (fun t => (destinationTenants.map (fun d => d.tenantId)).contains t.tenantId)

/-! ### Roles (`roles.py`) -/

/-- A role record as returned by `get_roles`
(`GET /identity/resources/roles/v2?_limit=2000`, `items` key).
`permissions` holds source-side permission ids. -/
structure Role where
  id : String
  key : String
  name : String
  description : String
  isDefault : Bool
  level : Nat
  tenantId : Option String
  permissions : List String
deriving DecidableEq, Repr

/-- Python truthiness of `role.get('tenantId')`. -/
def roleHasTenant (r : Role) : Bool :=
  match r.tenantId with
  | some t => strTruthy t
  | none => false

/-- The natural keys of the destination roles
(`dest_role_keys = {role['key'] for role in (dest_roles_with_tenant + dest_roles_without_tenant)}`). -/
def destRoleKeys (destRolesWithTenant destRolesWithoutTenant : List Role) :
    List String :=
  (destRolesWithTenant ++ destRolesWithoutTenant).map (fun r => r.key)

/-- The filtering loop of `migrate_roles` building `unique_roles`: source
roles whose key already exists in the destination are skipped, and among
the remaining source roles only the first occurrence of each key is kept
(a Python dict keyed by `role['key']`; the first occurrence also fixes the
stored record since later duplicates are skipped before insertion). -/
def uniqueRolesAux (destKeys : List String) :
    List Role → List (String × Role) → List (String × Role)
  | [], acc => acc
  | r :: rs, acc =>
    if destKeys.contains r.key then uniqueRolesAux destKeys rs acc
    else if acc.any (fun e => e.1 == r.key) then uniqueRolesAux destKeys rs acc
    else uniqueRolesAux destKeys rs (acc ++ [(r.key, r)])

/-- The list `unique_roles_list = list(unique_roles.values())` in `migrate_roles`:
the source roles that survive the existing-key and duplicate-key filters,
in first-occurrence order. -/
def uniqueRolesList (sourceRolesWithTenant sourceRolesWithoutTenant
    destRolesWithTenant destRolesWithoutTenant : List Role) : List Role :=
  (uniqueRolesAux (destRoleKeys destRolesWithTenant destRolesWithoutTenant)
    (sourceRolesWithTenant ++ sourceRolesWithoutTenant) []).map (fun e => e.2)

/-- The creation payload built per role in `create_roles`
(`name`, `key`, `description`, `isDefault`, `level`, and `tenantId` for the
tenant-scoped loop). -/
structure RolePayload where
  name : String
  key : String
  description : String
  isDefault : Bool
  level : Nat
  tenantId : Option String
deriving DecidableEq, Repr

/-- The payloads `create_roles` sends: one batched array for the roles
without `tenantId`, then one call per role with `tenantId`, in that order. -/
def createRolesPayloads (rolesWithTenant rolesWithoutTenant : List Role) :
    List RolePayload :=
  rolesWithoutTenant.map
      (fun r => ⟨r.name, r.key, r.description, r.isDefault, r.level, none⟩)
    ++ rolesWithTenant.map
      (fun r => ⟨r.name, r.key, r.description, r.isDefault, r.level, r.tenantId⟩)

/-! ### Dependent-entity reference remapping (C3) -/

/-- One reference resolution step of `assign_permissions_to_roles`: a
source permission id is looked up in the role's `permissionsData`, its key
is looked up in `dest_permissions_by_key`, and a truthy destination id is
produced; any miss yields nothing. -/
def resolvePermissionRef (permissionsData : List Permission)
    (destPermissionsByKey : List (String × String)) (permId : String) :
    Option String :=
  match permissionsData.find? (fun p => p.id == permId) with
  | some sourcePermission =>
      match dictGet destPermissionsByKey sourcePermission.key with
      | some destPermId => if strTruthy destPermId then some destPermId else none
      | none => none
  | none => none

/-- The destination permission ids collected for one role in
`assign_permissions_to_roles` (`permission_ids`). -/
def rolePermissionIds (permissionsData : List Permission)
    (destPermissionsByKey : List (String × String)) (refs : List String) :
    List String :=
  refs.filterMap (resolvePermissionRef permissionsData destPermissionsByKey)

/-- One role-reference translation step of `create_users_in_destination`:
`role_id_mapping.get(role_id)` kept only when truthy. -/
def resolveUserRoleRef (roleIdMapping : List (String × String))
    (roleId : String) : Option String :=
  match dictGet roleIdMapping roleId with
  | some destRoleId => if strTruthy destRoleId then some destRoleId else none
  | none => none

/-- The list `translated_role_ids` in `create_users_in_destination`: destination
role ids for one user, unmapped source role ids dropped. -/
def translatedRoleIds (roleIdMapping : List (String × String))
    (sourceRoleIds : List String) : List String :=
  sourceRoleIds.filterMap (resolveUserRoleRef roleIdMapping)

/-! ### Applications (`applications.py`) -/

/-- An application record as returned by `get_applications`. -/
structure App where
  id : String
  name : String
  isDefault : Bool
deriving DecidableEq, Repr

/-- One outward HTTP call issued by `migrate_applications`. -/
inductive AppCall where
  | create (name : String) (isDefault : Bool)
  | delete (id : String)
deriving DecidableEq, Repr

/-- The source-splitting loop of `migrate_applications`: the last
`isDefault` application becomes `source_default_app`, the non-default
applications are collected in order. -/
def splitDefaultApp (sourceApplications : List App) : Option App × List App :=
  sourceApplications.foldl
    (fun acc app =>
      if app.isDefault then (some app, acc.2) else (acc.1, acc.2 ++ [app]))
    (none, [])

/-- The ordered call sequence of `migrate_applications`: nothing when the
source has no applications; otherwise the non-default creations (step 1),
then — only when the destination is non-empty and a source default
exists — one deletion per pre-existing destination application (step 2),
then the creation of the source default application (step 3).
No placeholder application is created or deleted. -/
def migrateApplicationsCalls (sourceApplications destApplications : List App) :
    List AppCall :=
  if sourceApplications.isEmpty then []
  else
    let split := splitDefaultApp sourceApplications
    let createsNonDefault :=
      split.2.map (fun a => AppCall.create a.name a.isDefault)
    let deletes :=
      if !destApplications.isEmpty && split.1.isSome then
        destApplications.map (fun a => AppCall.delete a.id)
      else []
    let createDefault :=
      match split.1 with
      | some a => [AppCall.create a.name a.isDefault]
      | none => []
    createsNonDefault ++ deletes ++ createDefault

/-- Count of creation calls in an application call sequence. -/
def countCreates (calls : List AppCall) : Nat :=
  calls.countP (fun c => match c with | AppCall.create _ _ => true | _ => false)

/-- Count of deletion calls in an application call sequence. -/
def countDeletes (calls : List AppCall) : Nat :=
  calls.countP (fun c => match c with | AppCall.delete _ => true | _ => false)

/-- Destination application count after the call sequence runs, assuming
every call succeeds. -/
def finalAppCount (sourceApplications destApplications : List App) : Nat :=
  destApplications.length
    + countCreates (migrateApplicationsCalls sourceApplications destApplications)
    - countDeletes (migrateApplicationsCalls sourceApplications destApplications)

/-! ### Pagination (C6): `get_tenants`, `get_roles`, `get_applications`,
`get_users_with_pagination` against a paginated collection. -/

/-- A server-side collection served in pages: requests carry `_limit` and
`_offset`; a request without `_limit` is served with the server's default
page size; a `next` link is present exactly when further items remain. -/
structure PagedServer where
  items : List String
  defaultLimit : Nat
deriving DecidableEq, Repr

/-- The items of the page at `offset` with page size `limit`. -/
def pageItems (s : PagedServer) (limit offset : Nat) : List String :=
  (s.items.drop offset).take limit

/-- Whether the response at `offset` with page size `limit` carries a
`next` link. -/
def pageHasNext (s : PagedServer) (limit offset : Nat) : Bool :=
  decide (offset + limit < s.items.length)

/-- Model of `get_tenants`: a single `GET /tenants/resources/tenants/v2` with no
`_limit`/`_offset` and no follow-up request — only the first
default-sized page is returned. -/
def getTenantsItems (s : PagedServer) : List String :=
  pageItems s s.defaultLimit 0

/-- Model of `get_roles`: a single `GET /identity/resources/roles/v2?_limit=2000`
with no follow-up request — only the first page of up to 2000 items. -/
def getRolesItems (s : PagedServer) : List String :=
  pageItems s 2000 0

/-- Model of `get_applications`: a single
`GET /applications/resources/applications/v1?_excludeAgents=true` with no
`_limit` and no follow-up request. -/
def getApplicationsItems (s : PagedServer) : List String :=
  pageItems s s.defaultLimit 0

/-- The pagination loop of `get_users_with_pagination`
(`assign_roles_to_users.py`): fetch at `_limit=200` from `offset`, and
while the response carries a `next` link, fetch the next offset and
extend the accumulated items. -/
def getUsersAux (s : PagedServer) (offset : Nat) : List String :=
  if pageHasNext s 200 offset then
    pageItems s 200 offset ++ getUsersAux s (offset + 200)
  else
    pageItems s 200 offset
termination_by s.items.length - offset
decreasing_by
  simp only [pageHasNext, decide_eq_true_eq] at *
  omega

/-- Model of `get_users_with_pagination`: the full aggregation starting at the
first page. -/
def getUsersWithPagination (s : PagedServer) : List String :=
  getUsersAux s 0

/-! ### Fetch failure handling (C7): `get_tenants` / `get_permissions`
wrap the HTTP call in `try/except` and return `[]` on any failure. -/

/-- The result of the underlying rate-limited HTTP call of a fetcher:
either a successful response body, or the exception raised by
`make_request_with_rate_limiting` / `raise_for_status` (carried as a
message). -/
abbrev FetchResult (α : Type) := Except String α

/-- Function `get_tenants` seen as a fallible computation: it never propagates the
HTTP failure — the `except` clause logs and returns `[]`. -/
def getTenantsResult (call : FetchResult (List Tenant)) :
    Except String (List Tenant) :=
  match call with
  | Except.ok items => Except.ok items
  | Except.error _ => Except.ok []

/-- Function `get_permissions` seen as a fallible computation: it never propagates
the HTTP failure — the `except` clause logs and returns `[]`. -/
def getPermissionsResult (call : FetchResult (List Permission)) :
    Except String (List Permission) :=
  match call with
  | Except.ok items => Except.ok items
  | Except.error _ => Except.ok []

/-- The plain list `get_tenants` hands to its caller. -/
def getTenantsList (call : FetchResult (List Tenant)) : List Tenant :=
  match getTenantsResult call with
  | Except.ok items => items
  | Except.error _ => []

/-- In `migrate_tenants`, the tenants for which creation calls are issued.
When the source fetch yields no tenants the function returns before
`bulk_create_tenants`; otherwise the destination is fetched and only the
new tenants are created. -/
def migrateTenantsCreations (sourceCall : FetchResult (List Tenant))
    (destCall : FetchResult (List Tenant)) : List Tenant :=
  let sourceTenants := getTenantsList sourceCall
  if sourceTenants.isEmpty then []
  else newTenants (getTenantsList destCall) sourceTenants

/-! ### Rate-limited requests (C8): `make_request_with_rate_limiting`
in `tenants.py` / `applications.py`. -/

/-- An HTTP response, reduced to its status code. -/
structure HttpResponse where
  status : Nat
deriving DecidableEq, Repr

/-- Whether `raise_for_status` raises on this response. -/
def raisesForStatus (r : HttpResponse) : Bool := decide (400 ≤ r.status)

/-- Model of `make_request_with_rate_limiting`, with the successive raw responses
of the session given as `responses` (attempt 0, attempt 1, ...): a first
429 triggers one sleep-and-retry; then `raise_for_status` either returns
the response or raises it as an HTTP error. The second component is the
number of raw HTTP calls issued. -/
def makeRequestWithRateLimiting (responses : Nat → HttpResponse) :
    Except HttpResponse HttpResponse × Nat :=
  let first := responses 0
  if first.status == 429 then
    let second := responses 1
    (if raisesForStatus second then Except.error second else Except.ok second, 2)
  else
    (if raisesForStatus first then Except.error first else Except.ok first, 1)

/-- Model of `create_application` (`applications.py`): any exception from the
request is caught and turned into `None`; the caller counts that record
as failed. -/
def createApplicationResult (responses : Nat → HttpResponse) :
    Option HttpResponse :=
  match (makeRequestWithRateLimiting responses).1 with
  | Except.ok r => some r
  | Except.error _ => none

/-- The per-record counting loop of `migrate_applications`, step 1:
`created_count` and `failed_count` over a list of creation attempts. -/
def appCreationCounts (attempts : List (Nat → HttpResponse)) : Nat × Nat :=
  attempts.foldl
    (fun counts responses =>
      match createApplicationResult responses with
      | some _ => (counts.1 + 1, counts.2)
      | none => (counts.1, counts.2 + 1))
    (0, 0)

/-! ### Per-record error policy (C9): `create_tenant` loop vs the
`create_roles` tenant-scoped loop. -/

/-- Substring test on character lists (`"already exist" in error`). -/
def listHasSub : List Char → List Char → Bool
  | l, pat =>
    if pat.isPrefixOf l then true
    else match l with
      | [] => false
      | _ :: t => listHasSub t pat

/-- Python `"already exist" in error.lower()` over the `errors` array of
an HTTP error response. -/
def containsAlreadyExist (errors : List String) : Bool :=
  errors.any
    (fun e => listHasSub (e.toList.map Char.toLower) "already exist".toList)

/-- The response attached to a raised `requests.exceptions.HTTPError`:
its status code and its JSON `errors` array. -/
structure ErrResponse where
  status : Nat
  errors : List String
deriving DecidableEq, Repr

/-- Outcome of one creation request, as observed by the `try/except`
blocks: success with the created destination id, an HTTP error carrying
an optional response, or any other exception. -/
inductive ReqOutcome where
  | ok (destId : String)
  | httpError (response : Option ErrResponse)
  | exn
deriving DecidableEq, Repr

/-- Python truthiness of `e.response`: in the requests library
`Response.__bool__` returns `self.ok`, which is `False` exactly when the
status is 400 or above — so a response raised by `raise_for_status` is
always falsy here, and a missing response (`None`) is falsy too. -/
def responseTruthy (response : Option ErrResponse) : Bool :=
  match response with
  | some resp => decide (resp.status < 400)
  | none => false

/-- The `for tenant in new_tenants` loop of `bulk_create_tenants`:
`create_tenant` wraps its request in `try/except` and swallows every
exception, so every tenant is attempted regardless of earlier outcomes.
Each tenant is paired with its (possibly failed) result. -/
def bulkCreateTenantsRun (tenants : List Tenant)
    (outcome : Tenant → ReqOutcome) : List (Tenant × Option String) :=
  tenants.map
    (fun t =>
      (t, match outcome t with
          | ReqOutcome.ok destId => some destId
          | _ => none))

/-- The tenant-scoped loop of `create_roles` (`roles.py`, roles with
`tenantId`): on success the id pair is recorded; on an HTTP error the
code runs `if e.response:` — the truthiness test of `responseTruthy`,
false for every response `raise_for_status` produces — and only a truthy
response whose `errors` mention "already exist" is skipped; every other
HTTP error, and any other exception, is re-raised, aborting the loop.
Returns the accumulated mapping or the raised error. -/
def createRolesWithTenantLoop (roles : List Role)
    (outcome : Role → ReqOutcome) (acc : List (String × String)) :
    Except Unit (List (String × String)) :=
  match roles with
  | [] => Except.ok acc
  | r :: rest =>
    match outcome r with
    | ReqOutcome.ok destId =>
        createRolesWithTenantLoop rest outcome (acc ++ [(r.id, destId)])
    | ReqOutcome.httpError response =>
        if responseTruthy response then
          match response with
          | some resp =>
              if containsAlreadyExist resp.errors then
                createRolesWithTenantLoop rest outcome acc
              else Except.error ()
          | none => Except.error ()
        else Except.error ()
    | ReqOutcome.exn => Except.error ()

/-- The roles actually attempted by the tenant-scoped loop of
`create_roles` before it returns or re-raises. -/
def rolesAttempted (roles : List Role) (outcome : Role → ReqOutcome) :
    List Role :=
  match roles with
  | [] => []
  | r :: rest =>
    r ::
      match outcome r with
      | ReqOutcome.ok _ => rolesAttempted rest outcome
      | ReqOutcome.httpError response =>
          if responseTruthy response then
            match response with
            | some resp =>
                if containsAlreadyExist resp.errors then
                  rolesAttempted rest outcome
                else []
            | none => []
          else []
      | ReqOutcome.exn => []

/-! ### JWT settings flag (C10): `main.py` line 37 and
`jwt_settings.py` line 11 both read env var `MIGRATE_JWT_SETTINTS`. -/

/-- A process environment: name/value pairs. -/
abbrev Env := List (String × String)

/-- Python `os.getenv(name, default)`. -/
def getenvD (env : Env) (name dflt : String) : String :=
  match (List.find? (fun e => e.1 == name) env).map (fun e => e.2) with
  | some v => v
  | none => dflt

/-- Case-insensitive comparison with "true", as in
`os.getenv(...).lower() == "true"` (char-wise lowering). -/
def pyLowerIsTrue (s : String) : Bool :=
  s.toList.map Char.toLower == "true".toList

/-- The flag computed identically by `main.py` and `jwt_settings.py`:
`os.getenv("MIGRATE_JWT_SETTINTS", "False").lower() == "true"`. Note the
spelling: the variable actually read is `MIGRATE_JWT_SETTINTS`. -/
def migrateJwtEnabled (env : Env) : Bool :=
  pyLowerIsTrue (getenvD env "MIGRATE_JWT_SETTINTS" "False")

/-- One outward HTTP call issued by `migrate_jwt_settings`. -/
inductive JwtCall where
  | fetchSource
  | fetchDest
  | updateDest
deriving DecidableEq, Repr

/-- JWT settings as extracted by `get_jwt_settings` (key/value pairs with
`None` values removed); `none` models a failed fetch. -/
abbrev JwtSettings := Option (List (String × String))

/-- Model of `compare_jwt_settings`: an update is needed when either side is
missing/empty (Python falsiness) or some source key differs. -/
def jwtSettingsDiffer (src dest : List (String × String)) : Bool :=
  if src.isEmpty || dest.isEmpty then true
  else src.any (fun e => !(dictGet dest e.1 == some e.2))

/-- The calls `migrate_jwt_settings` issues, given the environment and
the settings each instance would return: the internal guard returns
immediately when the (typo-spelled) flag is off; otherwise the source is
fetched, then — unless the source fetch failed — the destination, then an
update when the comparison demands one. -/
def migrateJwtSettingsCalls (env : Env) (src dest : JwtSettings) :
    List JwtCall :=
  if !migrateJwtEnabled env then []
  else
    match src with
    | none => [JwtCall.fetchSource]
    | some srcSettings =>
      if srcSettings.isEmpty then [JwtCall.fetchSource]
      else
        let destSettings :=
          match dest with
          | none => []
          | some d => d
        if jwtSettingsDiffer srcSettings destSettings then
          [JwtCall.fetchSource, JwtCall.fetchDest, JwtCall.updateDest]
        else [JwtCall.fetchSource, JwtCall.fetchDest]

/-! ### Concrete inputs used by the closed theorems -/

/-- Source applications of the worked example: three non-default
applications and one default application. -/
def srcAppsEx : List App :=
  [⟨"a1", "App One", false⟩, ⟨"a2", "App Two", false⟩,
   ⟨"a3", "App Three", false⟩, ⟨"aD", "Main App", true⟩]

/-- Destination applications of the worked example: two pre-existing
applications, one of them the former default. -/
def destAppsEx : List App :=
  [⟨"d1", "Old One", false⟩, ⟨"d2", "Old Two", true⟩]

/-- A tenant-scoped role used in the concrete loop runs. -/
def roleEx1 : Role := ⟨"r1", "editor", "Editor", "", false, 0, some "t1", []⟩

/-- A second tenant-scoped role used in the concrete loop runs. -/
def roleEx2 : Role := ⟨"r2", "viewer", "Viewer", "", false, 0, some "t1", []⟩

/-- An outcome assignment where the first role's creation raises a
generic exception and the second would succeed. -/
def rolesOutcomeEx (r : Role) : ReqOutcome :=
  if r.id == "r1" then ReqOutcome.exn else ReqOutcome.ok "new2"

/-- An outcome assignment where every creation succeeds. -/
def okOutcome {α : Type} (_ : α) : ReqOutcome := ReqOutcome.ok "newid"

/-- An outcome assignment where every creation fails with an HTTP 409
whose response `errors` say the record already exists — the case the
source's skip branch is written for. -/
def alreadyExistsOutcomeEx {α : Type} (_ : α) : ReqOutcome :=
  ReqOutcome.httpError (some ⟨409, ["Role already exists"]⟩)

/-- A paginated collection of three items served two per page. -/
def serverEx : PagedServer := ⟨["t1", "t2", "t3"], 2⟩

/-! ## Helper lemmas -/

/-- Payload building distributes over list concatenation. -/
theorem batchPayloads_append (l1 l2 : List Permission) :
    batchPayloads (l1 ++ l2) = batchPayloads l1 ++ batchPayloads l2 := by
  simp [batchPayloads, List.filter_append]

/-- Batching by a positive chunk size does not change the payloads sent. -/
theorem chunks_map_batchPayloads (n : Nat) (hn : 0 < n) (l : List Permission) :
    ((chunks n l).map batchPayloads).flatten = batchPayloads l := by
  generalize hlen : l.length = m
  induction m using Nat.strong_induction_on generalizing l with
  | _ m ih =>
    rw [chunks]
    by_cases hl : l = []
    · subst hl
      simp [batchPayloads]
    · have hpos : 0 < l.length := List.length_pos.mpr hl
      rw [dif_neg (by simp [hl]; omega)]
      simp only [List.map_cons, List.flatten_cons]
      rw [ih (l.drop n).length (by simp [List.length_drop]; omega) _ rfl,
        ← batchPayloads_append, List.take_append_drop]

/-- Claim C1: a source permission whose `categoryId` has a (truthy) entry
in the category mapping built from name/description matching is migrated
with a payload whose `categoryId` is the mapped destination category id. -/
theorem permission_categoryId_remapped
    (srcCats destCats : List Category) (perms : List Permission)
    (p : Permission) (d : String)
    (hp : p ∈ perms)
    (hmap : dictGet (buildCategoryMapping srcCats destCats) p.categoryId = some d)
    (hd : strTruthy d = true)
    (hk : strTruthy p.key = true) :
    (⟨p.key, p.name, p.description, d⟩ : PermissionPayload) ∈
      createPermissionsPayloads
        (rewritePermissions (buildCategoryMapping srcCats destCats) perms) ∧
    (⟨p.key, p.name, p.description, d⟩ : PermissionPayload).categoryId = d := by
  refine ⟨?_, rfl⟩
  have hrw : ({ p with categoryId := d } : Permission) ∈
      rewritePermissions (buildCategoryMapping srcCats destCats) perms := by
    apply List.mem_filterMap.mpr
    exact ⟨p, hp, by rw [hmap]; simp [hd]⟩
  rw [createPermissionsPayloads, chunks_map_batchPayloads 100 (by omega)]
  apply List.mem_map.mpr
  refine ⟨{ p with categoryId := d }, List.mem_filter.mpr ⟨hrw, ?_⟩, rfl⟩
  simp [hk, hd]

/-- Witness for C1: the spec's own example, `read:x` in source category
`catA` which maps by name/description to destination category `catD`. -/
theorem permission_categoryId_remapped_witness :
    (⟨"read:x", "Read X", "", "catD"⟩ : PermissionPayload) ∈
      createPermissionsPayloads
        (rewritePermissions
          (buildCategoryMapping [⟨"catA", "Cat", "desc"⟩] [⟨"catD", "Cat", "desc"⟩])
          [⟨"p1", "read:x", "Read X", "", "catA"⟩]) :=
  (permission_categoryId_remapped [⟨"catA", "Cat", "desc"⟩] [⟨"catD", "Cat", "desc"⟩]
    [⟨"p1", "read:x", "Read X", "", "catA"⟩] ⟨"p1", "read:x", "Read X", "", "catA"⟩
    "catD" (by decide) (by decide) (by decide) (by decide)).1

/-- Entries already accumulated stay: if some accumulated entry has key
`k`, the finished accumulator still has an entry with key `k`. -/
theorem uniqueRolesAux_any_mono (destKeys : List String) (src : List Role)
    (acc : List (String × Role)) (k : String)
    (h : acc.any (fun e => e.1 == k) = true) :
    (uniqueRolesAux destKeys src acc).any (fun e => e.1 == k) = true := by
  induction src generalizing acc with
  | nil => simpa [uniqueRolesAux] using h
  | cons r rs ih =>
    simp only [uniqueRolesAux]
    split
    · exact ih acc h
    · split
      · exact ih acc h
      · apply ih
        rw [List.any_append]
        simp [h]

/-- Every entry of the finished accumulator either was already in the
initial accumulator or records a source role whose key is absent from the
destination keys (and the entry's key is that role's key). -/
theorem uniqueRolesAux_mem (destKeys : List String) (src : List Role)
    (acc : List (String × Role)) (e : String × Role)
    (he : e ∈ uniqueRolesAux destKeys src acc) :
    e ∈ acc ∨
      (e.1 = e.2.key ∧ e.2 ∈ src ∧ destKeys.contains e.2.key = false) := by
  induction src generalizing acc with
  | nil =>
    left
    simpa [uniqueRolesAux] using he
  | cons r rs ih =>
    simp only [uniqueRolesAux] at he
    by_cases h1 : destKeys.contains r.key
    · rw [if_pos h1] at he
      rcases ih acc he with hacc | ⟨hk, hm, hc⟩
      · exact Or.inl hacc
      · exact Or.inr ⟨hk, List.mem_cons_of_mem _ hm, hc⟩
    · rw [if_neg h1] at he
      split at he
      · rcases ih acc he with hacc | ⟨hk, hm, hc⟩
        · exact Or.inl hacc
        · exact Or.inr ⟨hk, List.mem_cons_of_mem _ hm, hc⟩
      · rcases ih _ he with hacc | ⟨hk, hm, hc⟩
        · rcases List.mem_append.mp hacc with hold | hnew
          · exact Or.inl hold
          · have : e = (r.key, r) := by simpa using hnew
            subst this
            exact Or.inr ⟨rfl, List.mem_cons_self _ _, Bool.eq_false_iff.mpr h1⟩
        · exact Or.inr ⟨hk, List.mem_cons_of_mem _ hm, hc⟩

/-- Every source role whose key is not among the destination keys leaves
an entry under its key in the finished accumulator. -/
theorem uniqueRolesAux_covers (destKeys : List String) (src : List Role)
    (r : Role) (hr : r ∈ src) (hkey : destKeys.contains r.key = false)
    (acc : List (String × Role)) :
    (uniqueRolesAux destKeys src acc).any (fun e => e.1 == r.key) = true := by
  induction src generalizing acc with
  | nil => cases hr
  | cons r0 rs ih =>
    simp only [uniqueRolesAux]
    rcases List.mem_cons.mp hr with heq | hmem
    · subst heq
      rw [if_neg (by rw [hkey]; simp)]
      by_cases hacc : acc.any (fun e => e.1 == r.key) = true
      · rw [if_pos hacc]
        exact uniqueRolesAux_any_mono _ _ _ _ hacc
      · rw [if_neg hacc]
        apply uniqueRolesAux_any_mono
        rw [List.any_append]
        simp
    · split
      · exact ih hmem acc
      · split
        · exact ih hmem acc
        · exact ih hmem _

/-- When every source key already exists in the destination the filtering
loop adds nothing. -/
theorem uniqueRolesAux_all_existing (destKeys : List String) (src : List Role)
    (acc : List (String × Role))
    (h : ∀ r ∈ src, destKeys.contains r.key = true) :
    uniqueRolesAux destKeys src acc = acc := by
  induction src generalizing acc with
  | nil => simp [uniqueRolesAux]
  | cons r rs ih =>
    simp only [uniqueRolesAux]
    rw [if_pos (h r (List.mem_cons_self _ _))]
    exact ih _ (fun q hq => h q (List.mem_cons_of_mem _ hq))

/-- Claim C2: a source record whose natural key already exists in the
destination (tenantId for tenants, key for roles) is never created, and a
second run of the same migration against the destination state produced
by the first run creates nothing. -/
theorem natural_key_match_never_creates :
    (∀ (dest src : List Tenant) (t : Tenant), t ∈ src →
        (dest.map (fun x => x.tenantId)).contains t.tenantId = true →
        t ∉ newTenants dest src) ∧
    (∀ dest src : List Tenant,
        newTenants (dest ++ newTenants dest src) src = []) ∧
    (∀ (srcW srcWo destW destWo : List Role) (r : Role), r ∈ srcW ++ srcWo →
        (destRoleKeys destW destWo).contains r.key = true →
        r ∉ uniqueRolesList srcW srcWo destW destWo) ∧
    (∀ srcW srcWo destW destWo : List Role,
        uniqueRolesList srcW srcWo destW
          (destWo ++ uniqueRolesList srcW srcWo destW destWo) = []) := by
  have hroleskip : ∀ (srcW srcWo destW destWo : List Role) (r : Role),
      (destRoleKeys destW destWo).contains r.key = true →
      r ∉ uniqueRolesList srcW srcWo destW destWo := by
    intro srcW srcWo destW destWo r hkey hr
    rcases List.mem_map.mp hr with ⟨e, he, hev⟩
    rcases uniqueRolesAux_mem _ _ _ _ he with hacc | ⟨_, _, hc⟩
    · cases hacc
    · rw [hev] at hc
      rw [hkey] at hc
      cases hc
  refine ⟨?_, ?_, fun srcW srcWo destW destWo r _ hkey =>
    hroleskip srcW srcWo destW destWo r hkey, ?_⟩
  · intro dest src t _ hkey ht
    have h2 := (List.mem_filter.mp ht).2
    simp only [hkey] at h2
    cases h2
  · intro dest src
    rw [newTenants, List.filter_eq_nil_iff]
    intro t ht
    have hidm : t.tenantId ∈
        (dest ++ newTenants dest src).map (fun d => d.tenantId) := by
      by_cases hc : t.tenantId ∈ dest.map (fun d => d.tenantId)
      · rw [List.map_append]
        exact List.mem_append.mpr (Or.inl hc)
      · have htnew : t ∈ newTenants dest src :=
          List.mem_filter.mpr ⟨ht, by simp [hc]⟩
        rw [List.map_append]
        exact List.mem_append.mpr (Or.inr (List.mem_map.mpr ⟨t, htnew, rfl⟩))
    simp only [List.map_append] at hidm
    simp
    intro hdest
    rcases List.mem_append.mp hidm with hxd | hxn
    · rcases List.mem_map.mp hxd with ⟨x, hx, hxe⟩
      exact absurd hxe (hdest x hx)
    · rcases List.mem_map.mp hxn with ⟨x, hx, hxe⟩
      exact ⟨x, hx, hxe⟩
  · intro srcW srcWo destW destWo
    rw [uniqueRolesList, uniqueRolesAux_all_existing, List.map_nil]
    intro r hr
    have hmem : r.key ∈
        destRoleKeys destW (destWo ++ uniqueRolesList srcW srcWo destW destWo) := by
      by_cases hc : (destRoleKeys destW destWo).contains r.key = true
      · have hold : r.key ∈ destRoleKeys destW destWo := by simpa using hc
        simp only [destRoleKeys, List.map_append, List.mem_append] at hold ⊢
        tauto
      · have hany :=
          uniqueRolesAux_covers _ (srcW ++ srcWo) r hr (Bool.eq_false_iff.mpr hc) []
        rcases List.any_eq_true.mp hany with ⟨e, he, hek⟩
        rcases uniqueRolesAux_mem _ _ _ _ he with hacc | ⟨hk, _, _⟩
        · cases hacc
        · have hkey2 : e.2.key = r.key := by
            rw [← hk]
            simpa using hek
          have hplan : e.2 ∈ uniqueRolesList srcW srcWo destW destWo :=
            List.mem_map.mpr ⟨e, he, rfl⟩
          simp only [destRoleKeys, List.map_append, List.mem_append]
          exact Or.inr (Or.inr (List.mem_map.mpr ⟨e.2, hplan, hkey2⟩))
    simpa using hmem

/-- Witness for C2: a tenant and a role whose natural keys already exist
in the destination are not (re)created. -/
theorem natural_key_match_never_creates_witness :
    (⟨"t1", "Tenant One", none⟩ : Tenant) ∉
      newTenants [⟨"t1", "Tenant One", none⟩] [⟨"t1", "Tenant One", none⟩] ∧
    roleEx1 ∉ uniqueRolesList [roleEx1] [] [roleEx1] [] :=
  ⟨natural_key_match_never_creates.1 [⟨"t1", "Tenant One", none⟩]
      [⟨"t1", "Tenant One", none⟩] ⟨"t1", "Tenant One", none⟩
      (by decide) (by decide),
    natural_key_match_never_creates.2.2.1 [roleEx1] [] [roleEx1] [] roleEx1
      (by decide) (by decide)⟩

/-- Claim C4: a source role whose key already exists in the destination
is skipped by `migrate_roles`: it does not reach `create_roles` or
`assign_permissions_to_roles`, and no creation payload carries its key. -/
theorem existing_role_skipped
    (srcW srcWo destW destWo : List Role) (r : Role)
    (hr : r ∈ srcW ++ srcWo)
    (hkey : (destRoleKeys destW destWo).contains r.key = true) :
    (∀ q ∈ uniqueRolesList srcW srcWo destW destWo, q.key ≠ r.key) ∧
    r ∉ uniqueRolesList srcW srcWo destW destWo ∧
    (∀ pay ∈ createRolesPayloads
        ((uniqueRolesList srcW srcWo destW destWo).filter roleHasTenant)
        ((uniqueRolesList srcW srcWo destW destWo).filter
          (fun q => !roleHasTenant q)),
      pay.key ≠ r.key) := by
  have hq : ∀ q ∈ uniqueRolesList srcW srcWo destW destWo, q.key ≠ r.key := by
    intro q hqmem heq
    rcases List.mem_map.mp hqmem with ⟨e, he, hev⟩
    rcases uniqueRolesAux_mem _ _ _ _ he with hacc | ⟨_, _, hc⟩
    · cases hacc
    · rw [hev, heq, hkey] at hc
      cases hc
  refine ⟨hq, fun hmem => hq r hmem rfl, ?_⟩
  intro pay hpay
  rcases List.mem_append.mp hpay with hwo | hw
  · rcases List.mem_map.mp hwo with ⟨q, hqf, hqe⟩
    have := hq q (List.mem_filter.mp hqf).1
    rw [← hqe]
    exact this
  · rcases List.mem_map.mp hw with ⟨q, hqf, hqe⟩
    have := hq q (List.mem_filter.mp hqf).1
    rw [← hqe]
    exact this

/-- Witness for C4: a destination role with key `editor` blocks the
source role with the same key from the creation plan. -/
theorem existing_role_skipped_witness :
    roleEx1 ∉ uniqueRolesList [roleEx1] [] [roleEx1] [roleEx2] :=
  (existing_role_skipped [roleEx1] [] [roleEx1] [roleEx2] roleEx1
    (by decide) (by decide)).2.1

/-- Claim C3: a dependent-entity reference whose source identifier does
not resolve through the Identifier Mapping is dropped — removing it from
the input leaves the rewritten payload unchanged — and every identifier
in the rewritten payload comes from a resolved reference; the rewriting
functions are total, so dropping never raises. Stated for the role →
permission references of `assign_permissions_to_roles` and the user →
role references of `create_users_in_destination`. -/
theorem unmapped_references_dropped :
    (∀ (pdata : List Permission) (m : List (String × String))
        (l1 l2 : List String) (r : String),
        resolvePermissionRef pdata m r = none →
        rolePermissionIds pdata m (l1 ++ r :: l2) =
          rolePermissionIds pdata m (l1 ++ l2)) ∧
    (∀ (pdata : List Permission) (m : List (String × String))
        (refs : List String) (d : String),
        d ∈ rolePermissionIds pdata m refs →
        ∃ r ∈ refs, resolvePermissionRef pdata m r = some d) ∧
    (∀ (m : List (String × String)) (l1 l2 : List String) (r : String),
        resolveUserRoleRef m r = none →
        translatedRoleIds m (l1 ++ r :: l2) = translatedRoleIds m (l1 ++ l2)) ∧
    (∀ (m : List (String × String)) (ids : List String) (d : String),
        d ∈ translatedRoleIds m ids →
        ∃ r ∈ ids, resolveUserRoleRef m r = some d) := by
  refine ⟨?_, ?_, ?_, ?_⟩
  · intro pdata m l1 l2 r h
    simp [rolePermissionIds, List.filterMap_append, List.filterMap_cons, h]
  · intro pdata m refs d hd
    exact List.mem_filterMap.mp hd
  · intro m l1 l2 r h
    simp [translatedRoleIds, List.filterMap_append, List.filterMap_cons, h]
  · intro m ids d hd
    exact List.mem_filterMap.mp hd

/-- Witness for C3: one unresolvable permission reference and one
unresolvable role reference are dropped without effect. -/
theorem unmapped_references_dropped_witness :
    rolePermissionIds [] [] ([] ++ "perm9" :: []) =
      rolePermissionIds [] [] ([] ++ []) ∧
    translatedRoleIds [] ([] ++ "role9" :: []) =
      translatedRoleIds [] ([] ++ []) :=
  ⟨unmapped_references_dropped.1 [] [] [] [] "perm9" (by decide),
    unmapped_references_dropped.2.2.1 [] [] [] "role9" (by decide)⟩

/-- Claim C5, counterexample: on the spec's example (3 non-default plus 1
default source application, 2 pre-existing destination applications) the
code issues only 2 deletions, not 3, and its first call creates the first
non-default source application, not a placeholder. -/
theorem applications_placeholder_counterexample :
    countDeletes (migrateApplicationsCalls srcAppsEx destAppsEx) = 2 ∧
    ¬ countDeletes (migrateApplicationsCalls srcAppsEx destAppsEx) = 3 ∧
    (migrateApplicationsCalls srcAppsEx destAppsEx).head? =
      some (AppCall.create "App One" false) := by decide

/-- Claim C5, amended: no placeholder application exists; the sequence is
create the 3 non-default apps, delete the 2 pre-existing destination apps
(2 deletions), then create the 1 default app; the final destination
application count is 4. -/
theorem applications_actual_call_sequence :
    migrateApplicationsCalls srcAppsEx destAppsEx =
      [AppCall.create "App One" false, AppCall.create "App Two" false,
       AppCall.create "App Three" false, AppCall.delete "d1",
       AppCall.delete "d2", AppCall.create "Main App" true] ∧
    finalAppCount srcAppsEx destAppsEx = 4 := by decide

/-- The pagination loop of `get_users_with_pagination` collects exactly
the items from `offset` on. -/
theorem getUsersAux_eq (s : PagedServer) (offset : Nat) :
    getUsersAux s offset = s.items.drop offset := by
  generalize hm : s.items.length - offset = m
  induction m using Nat.strong_induction_on generalizing offset with
  | _ m ih =>
    rw [getUsersAux]
    by_cases h : offset + 200 < s.items.length
    · rw [if_pos (by simp [pageHasNext, h]),
        ih (s.items.length - (offset + 200)) (by omega) _ rfl]
      rw [pageItems, ← List.drop_drop]
      exact List.take_append_drop 200 _
    · rw [if_neg (by simp [pageHasNext]; omega), pageItems]
      apply List.take_of_length_le
      rw [List.length_drop]
      omega

/-- Claim C6, counterexample: a collection of three items served two per
page spans multiple pages, yet the tenant fetcher returns only the first
page. -/
theorem single_request_fetch_counterexample :
    getTenantsItems serverEx = ["t1", "t2"] ∧
    ¬ getTenantsItems serverEx = serverEx.items ∧
    pageHasNext serverEx serverEx.defaultLimit 0 = true := by decide

/-- Claim C6, amended: only the user fetcher of
`assign_roles_to_users.py` paginates (and aggregates the whole
collection); `get_tenants`, `get_roles` and `get_applications` issue a
single request and return just its first page (`get_roles` with
`_limit=2000`, the others with the server default page size). -/
theorem fetchers_single_page (s : PagedServer) :
    getUsersWithPagination s = s.items ∧
    getTenantsItems s = s.items.take s.defaultLimit ∧
    getRolesItems s = s.items.take 2000 ∧
    getApplicationsItems s = s.items.take s.defaultLimit := by
  refine ⟨?_, rfl, rfl, rfl⟩
  rw [getUsersWithPagination, getUsersAux_eq]
  simp

/-- Claim C7, counterexample: when the underlying HTTP call of
`get_tenants` / `get_permissions` fails, the fetcher does not fail with a
`FetchError` — the exception handler swallows the failure and returns an
empty list. -/
theorem fetch_error_swallowed_counterexample :
    getTenantsResult (Except.error "HTTP 500 Server Error") = Except.ok [] ∧
    ¬ getTenantsResult (Except.error "HTTP 500 Server Error") =
        Except.error "HTTP 500 Server Error" ∧
    getPermissionsResult (Except.error "HTTP 500 Server Error") =
      Except.ok [] := by
  exact ⟨rfl, by simp [getTenantsResult], rfl⟩

/-- Claim C7, amended: a failing HTTP fetch is caught inside the fetcher,
which returns an empty list instead of raising; `migrate_tenants` then
sees no source tenants and issues no creation calls, and — because no
exception escapes the fetcher — other enabled steps are unaffected. -/
theorem fetch_error_yields_empty_step (e : String)
    (destCall : FetchResult (List Tenant)) :
    getTenantsResult (Except.error e) = Except.ok [] ∧
    getPermissionsResult (Except.error e) = Except.ok [] ∧
    migrateTenantsCreations (Except.error e) destCall = [] :=
  ⟨rfl, rfl, rfl⟩

/-- Claim C8: a first 429 response is retried exactly once (two raw HTTP
calls, never more); when the retry also returns 429 the failure is the
raised HTTP error for that response, which the creation caller turns into
an ordinary per-record failure (`None` result, `failed` incremented) —
there is no authentication handling on this path. -/
theorem rate_limit_retried_once (responses : Nat → HttpResponse)
    (h0 : (responses 0).status = 429) (h1 : (responses 1).status = 429) :
    makeRequestWithRateLimiting responses = (Except.error (responses 1), 2) ∧
    createApplicationResult responses = none ∧
    appCreationCounts [responses] = (0, 1) := by
  have hmain : makeRequestWithRateLimiting responses =
      (Except.error (responses 1), 2) := by
    rw [makeRequestWithRateLimiting]
    simp [h0, raisesForStatus, h1]
  refine ⟨hmain, ?_, ?_⟩
  · rw [createApplicationResult, hmain]
  · rw [appCreationCounts, List.foldl_cons, createApplicationResult, hmain]
    rfl

/-- Witness for C8: both raw calls return 429. -/
theorem rate_limit_retried_once_witness :
    makeRequestWithRateLimiting (fun _ => ⟨429⟩) = (Except.error ⟨429⟩, 2) ∧
    createApplicationResult (fun _ => ⟨429⟩) = none ∧
    appCreationCounts [fun _ => ⟨429⟩] = (0, 1) :=
  rate_limit_retried_once (fun _ => ⟨429⟩) rfl rfl

/-- Claim C9, counterexample: in the tenant-scoped loop of
`create_roles`, a per-role creation failure re-raises and aborts the
batch — the second role is never attempted — contradicting "one failure
never aborts the batch ... including roles". This holds even for an
"already exists" HTTP 409: the skip branch sits behind `if e.response:`,
whose requests-library truthiness is false for every response
`raise_for_status` produces, so it is dead code. -/
theorem role_creation_error_aborts_counterexample :
    createRolesWithTenantLoop [roleEx1, roleEx2] rolesOutcomeEx [] =
      Except.error () ∧
    rolesAttempted [roleEx1, roleEx2] rolesOutcomeEx = [roleEx1] ∧
    createRolesWithTenantLoop [roleEx1, roleEx2] alreadyExistsOutcomeEx [] =
      Except.error () ∧
    rolesAttempted [roleEx1, roleEx2] alreadyExistsOutcomeEx = [roleEx1] :=
  ⟨rfl, rfl, rfl, rfl⟩

/-- When every outcome in the tenant-scoped roles loop is a success, the
loop finishes all roles and returns the accumulated mapping. -/
theorem createRolesLoop_ok_of_success (rOutcome : Role → ReqOutcome)
    (roles : List Role)
    (h : ∀ r ∈ roles, ∃ d, rOutcome r = ReqOutcome.ok d) :
    (∀ acc, ∃ mapping,
        createRolesWithTenantLoop roles rOutcome acc = Except.ok mapping) ∧
    rolesAttempted roles rOutcome = roles := by
  induction roles with
  | nil => exact ⟨fun acc => ⟨acc, rfl⟩, rfl⟩
  | cons r rs ih =>
    rcases h r (List.mem_cons_self _ _) with ⟨d, hd⟩
    have ihtail := ih (fun q hq => h q (List.mem_cons_of_mem _ hq))
    constructor
    · intro acc
      rw [createRolesWithTenantLoop, hd]
      exact ihtail.1 _
    · rw [rolesAttempted, hd, ihtail.2]

/-- Every failing outcome aborts the tenant-scoped roles loop at that
role: the loop is aborted whenever the outcome is an exception or an
HTTP error, because the "already exists" skip branch is guarded by the
status-based truthiness of `e.response`, false for every raised error
response. -/
theorem createRolesLoop_aborts_on_failure (rOutcome : Role → ReqOutcome)
    (r : Role) (rest : List Role) (acc : List (String × String))
    (h : rOutcome r = ReqOutcome.exn ∨
        ∃ response, rOutcome r = ReqOutcome.httpError response ∧
          responseTruthy response = false) :
    createRolesWithTenantLoop (r :: rest) rOutcome acc = Except.error () ∧
    rolesAttempted (r :: rest) rOutcome = [r] := by
  rcases h with hexn | ⟨response, herr, hfalsy⟩
  · rw [createRolesWithTenantLoop, hexn, rolesAttempted, hexn]
    exact ⟨rfl, rfl⟩
  · rw [createRolesWithTenantLoop, herr, rolesAttempted, herr]
    simp [hfalsy]

/-- Claim C9, amended: the tenant creation loop attempts every record
regardless of per-record outcomes (`create_tenant` swallows all
exceptions), but the tenant-scoped roles loop of `create_roles`
continues only past successful creations: any per-role HTTP error —
"already exists" included, since the skip branch behind `if e.response:`
is unreachable for the falsy (status ≥ 400) responses `raise_for_status`
raises — and any other exception re-raises and aborts the remaining
batch. -/
theorem per_record_error_policy
    (tenants : List Tenant) (tOutcome : Tenant → ReqOutcome)
    (roles : List Role) (rOutcome : Role → ReqOutcome)
    (h : ∀ r ∈ roles, ∃ d, rOutcome r = ReqOutcome.ok d) :
    (bulkCreateTenantsRun tenants tOutcome).map (fun e => e.1) = tenants ∧
    rolesAttempted roles rOutcome = roles ∧
    (∃ mapping, createRolesWithTenantLoop roles rOutcome [] =
      Except.ok mapping) ∧
    (∀ (r : Role) (rest : List Role) (resp : ErrResponse),
      400 ≤ resp.status →
      createRolesWithTenantLoop (r :: rest)
        (fun _ => ReqOutcome.httpError (some resp)) [] = Except.error ()) := by
  refine ⟨?_, (createRolesLoop_ok_of_success rOutcome roles h).2,
    (createRolesLoop_ok_of_success rOutcome roles h).1 [], ?_⟩
  · rw [bulkCreateTenantsRun, List.map_map]
    exact List.map_id _
  · intro r rest resp hstatus
    exact (createRolesLoop_aborts_on_failure _ r rest []
      (Or.inr ⟨some resp, rfl, by simp [responseTruthy]; omega⟩)).1

/-- Witness for C9: a tenant whose creation raises is still the only
attempted record, a roles loop whose outcomes all succeed finishes, and
a 409 "already exists" error response aborts the roles loop. -/
theorem per_record_error_policy_witness :
    (bulkCreateTenantsRun [⟨"t1", "Tenant One", none⟩]
        (fun _ => ReqOutcome.exn)).map (fun e => e.1) =
      [⟨"t1", "Tenant One", none⟩] ∧
    rolesAttempted [roleEx1] okOutcome = [roleEx1] ∧
    createRolesWithTenantLoop [roleEx2]
      (fun _ => ReqOutcome.httpError (some ⟨409, ["Role already exists"]⟩)) [] =
      Except.error () :=
  have hmain := per_record_error_policy [⟨"t1", "Tenant One", none⟩]
    (fun _ => ReqOutcome.exn) [roleEx1] okOutcome
    (fun r _ => ⟨"newid", rfl⟩)
  ⟨hmain.1, hmain.2.1,
    hmain.2.2.2 roleEx2 [] ⟨409, ["Role already exists"]⟩ (by decide)⟩

/-- Claim C10: with no environment entry named `MIGRATE_JWT_SETTINTS`
(the spelling both `main.py` and `jwt_settings.py` actually read), the
JWT step is disabled and `migrate_jwt_settings` issues no call at all —
even when a variable named `MIGRATE_JWT_SETTINGS` is set to any value. -/
theorem jwt_flag_misspelling (env : Env) (src dest : JwtSettings)
    (h : List.find? (fun e => e.1 == "MIGRATE_JWT_SETTINTS") env = none) :
    migrateJwtEnabled env = false ∧
    migrateJwtSettingsCalls env src dest = [] ∧
    (∀ v : String,
      migrateJwtEnabled (("MIGRATE_JWT_SETTINGS", v) :: env) = false) := by
  have henv : ∀ env' : Env,
      List.find? (fun e => e.1 == "MIGRATE_JWT_SETTINTS") env' = none →
      migrateJwtEnabled env' = false := by
    intro env' h'
    rw [migrateJwtEnabled, getenvD, h']
    decide
  refine ⟨henv env h, ?_, ?_⟩
  · rw [migrateJwtSettingsCalls.eq_def, henv env h]
    rfl
  · intro v
    apply henv
    have hne : ¬((fun (e : String × String) => e.1 == "MIGRATE_JWT_SETTINTS")
        ("MIGRATE_JWT_SETTINGS", v)) = true := by
      show ¬(("MIGRATE_JWT_SETTINGS" : String) == "MIGRATE_JWT_SETTINTS") = true
      decide
    rw [List.find?_cons_of_neg env hne]
    exact h

/-- Witness for C10: an environment that sets only the correctly spelled
`MIGRATE_JWT_SETTINGS=true` leaves the step disabled and callless. -/
theorem jwt_flag_misspelling_witness :
    migrateJwtEnabled [("MIGRATE_JWT_SETTINGS", "true")] = false ∧
    migrateJwtSettingsCalls [("MIGRATE_JWT_SETTINGS", "true")]
      (some [("defaultTokenExpiration", "86400")]) none = [] :=
  ⟨(jwt_flag_misspelling [("MIGRATE_JWT_SETTINGS", "true")]
      (some [("defaultTokenExpiration", "86400")]) none (by decide)).1,
    (jwt_flag_misspelling [("MIGRATE_JWT_SETTINGS", "true")]
      (some [("defaultTokenExpiration", "86400")]) none (by decide)).2.1⟩

end Migration
